import Mathlib

/-!
Verification development for the Rockchip VPU VP8 decoder driver.

The embedding models, from the driver sources:
* the run scheduler (`rockchip_vpu_try_run`, `__rockchip_vpu_dequeue_run_locked`,
  `__rockchip_vpu_try_context_locked`, `rockchip_vpu_run_done`,
  `rockchip_vpu_try_context`), the hardware interrupt completion path
  (`vdpu_irq`) and the watchdog (`rockchip_vpu_watchdog`);
* the VP8 register image builder (`rockchip_vp8d_prob_update`,
  `rockchip_vp8d_cfg_lf`, `rockchip_vp8d_cfg_qp`, `rockchip_vp8d_cfg_parts`,
  `rockchip_vp8d_cfg_ref`) together with the packed probability table layout
  (`struct vp8_prob_tbl_packed`);
* VP8 codec context initialisation (`rockchip_vpu_vp8d_init`) and the
  segment-map reset performed by `rockchip_vpu_vp8d_run`.

Machine integers are modelled as `Nat`/`Int` with explicit reduction modulo
`2 ^ 32` where 32-bit register arithmetic matters.  Byte buffers and the
register file are modelled as `Nat → Nat` maps updated by an explicit
write list, mirroring the order of the stores in the C code.
-/

set_option maxRecDepth 1000000

namespace RockchipVpu

/-- Byte/word memory as a total map; `store m a v` models `m[a] = v`. -/
def store (m : Nat → Nat) (a v : Nat) : Nat → Nat :=
  fun x => if x = a then v else m x

/-- Execute a list of `(address, value)` stores in program order, starting
from memory `m`.  Later stores to the same address win, as in C. -/
def runWrites (m : Nat → Nat) (ws : List (Nat × Nat)) : Nat → Nat :=
  ws.foldl (fun mm w => store mm w.1 w.2) m

/-- Truncation of an integer to an unsigned 32-bit register value, modelling
the implicit conversion when a C expression is stored into a `u32`. -/
def toU32 (v : Int) : Nat := (v % (2 ^ 32 : Int)).toNat

/-- Reduction of unsigned arithmetic modulo `2 ^ 32`, modelling `u32`. -/
def u32 (n : Nat) : Nat := n % 2 ^ 32

/-- The C macro `clamp(val, lo, hi)` from the kernel: `min(max(val, lo), hi)`. -/
def cClamp (v lo hi : Int) : Int := min (max v lo) hi

/-! ## Run scheduler model (`rockchip_vpu_enc.c` scheduling section)

A `SchedCtx` models `struct rockchip_vpu_ctx`'s scheduling-relevant fields:
the two internal buffer queues and the currently bound run pair.  A `Dev`
models `struct rockchip_vpu_dev`: the readiness list `ready_ctxs`, the
`VPU_RUNNING` / `VPU_SUSPENDED` state bits, `current_ctx`, and additionally
the armed watchdog deadline (`schedule_delayed_work` /
`cancel_delayed_work`), a log of `vb2_buffer_done` completion signals and a
count of invocations of the codec `reset` hook (which itself only performs
hardware register writes). -/

abbrev CtxId := Nat
abbrev BufId := Nat

/-- The `vb2_buffer_state` values used by the driver for completed buffers. -/
inductive Vb2BufState where
  | done
  | error
deriving DecidableEq, Repr

/-- Scheduling view of `struct rockchip_vpu_ctx`. -/
structure SchedCtx where
  src_queue : List BufId
  dst_queue : List BufId
  runSrc : Option BufId
  runDst : Option BufId
deriving DecidableEq, Repr

/-- Scheduling view of `struct rockchip_vpu_dev`, plus the watchdog timer and
observable completion/reset logs. -/
structure Dev where
  ready : List CtxId
  running : Bool
  suspended : Bool
  current : Option CtxId
  timer : Option Nat
  completed : List (BufId × Vb2BufState)
  resets : Nat
  ctxs : CtxId → SchedCtx

/-- Update one context inside the device state. -/
def setCtx (d : Dev) (i : CtxId) (c : SchedCtx) : Dev :=
  { d with ctxs := fun x => if x = i then c else d.ctxs x }

/-- The watchdog deadline in milliseconds: `msecs_to_jiffies(2000)` in
`rockchip_vpu_vp8d_run`. -/
def watchdogTimeoutMs : Nat := 2000

/-- Model of `__rockchip_vpu_dequeue_run_locked`: bind the first entry of
each of the context's queues into the run and drop them from the queues. -/
def dequeueRunLocked (c : SchedCtx) : SchedCtx :=
  { c with
    runSrc := c.src_queue.head?
    runDst := c.dst_queue.head?
    src_queue := c.src_queue.tail
    dst_queue := c.dst_queue.tail }

/-- Model of `rockchip_vpu_try_run`.  If the readiness list is empty or the
device is suspended, or the `VPU_RUNNING` bit is already set, nothing
happens.  Otherwise the head context is removed from the readiness list, one
buffer is dequeued from each of its queues, the context becomes current and
the hardware is started (`rockchip_vpu_run` reaches
`rockchip_vpu_vp8d_run`, which arms the watchdog with a 2000 ms deadline). -/
def tryRun (d : Dev) : Dev :=
  if d.ready = [] ∨ d.suspended then d
  else if d.running then d
  else
    match d.ready with
    | [] => d
    | c :: rest =>
      let d1 := setCtx d c (dequeueRunLocked (d.ctxs c))
      { d1 with
        ready := rest
        running := true
        current := some c
        timer := some watchdogTimeoutMs }

/-- Model of `__rockchip_vpu_try_context_locked`: a context already linked
into the readiness list is left alone; otherwise it is appended to the tail
if and only if both its queues are non-empty. -/
def tryContextLocked (d : Dev) (c : CtxId) : Dev :=
  if c ∈ d.ready then d
  else if (d.ctxs c).dst_queue ≠ [] ∧ (d.ctxs c).src_queue ≠ [] then
    { d with ready := d.ready ++ [c] }
  else d

/-- Model of `rockchip_vpu_run_done`: signal both bound buffers with the
result, clear `current_ctx`, re-queue the context if eligible, clear the
`VPU_RUNNING` bit and try to schedule another run. -/
def runDone (d : Dev) (c : CtxId) (result : Vb2BufState) : Dev :=
  let ctx := d.ctxs c
  let d1 := { d with
    completed :=
      d.completed ++ (ctx.runSrc.toList ++ ctx.runDst.toList).map (fun b => (b, result))
    current := none }
  let d2 := tryContextLocked d1 c
  let d3 := { d2 with running := false }
  tryRun d3

/-- Model of `rockchip_vpu_try_context` (the public `submit`): the locked
queue insertion followed by a dispatch attempt. -/
def tryContext (d : Dev) (c : CtxId) : Dev :=
  tryRun (tryContextLocked d c)

/-- Model of the codec `reset` hook `rockchip_vpu_dec_reset`, which only
performs hardware register writes; observable here as an event count. -/
def decReset (d : Dev) : Dev :=
  { d with resets := d.resets + 1 }

/-- Model of the hardware completion path `vdpu_irq`: cancel the armed
watchdog, then run the normal completion path with `VB2_BUF_STATE_DONE`. -/
def hwIrqComplete (d : Dev) : Dev :=
  match d.current with
  | none => d
  | some c => runDone { d with timer := none } c .done

/-- Model of `rockchip_vpu_watchdog` firing: the delayed work is no longer
pending, the codec `reset` hook runs under the scheduler lock, and the
normal completion path runs with `VB2_BUF_STATE_ERROR`. -/
def watchdogFire (d : Dev) : Dev :=
  match d.current with
  | none => d
  | some c => runDone (decReset { d with timer := none }) c .error

/-- One externally triggered scheduler operation. -/
inductive SchedOp where
  | submit (c : CtxId)
  | complete (c : CtxId) (r : Vb2BufState)

/-- Interpretation of one scheduler operation on the device state. -/
def schedStep (d : Dev) : SchedOp → Dev
  | .submit c => tryContext d c
  | .complete c r => runDone d c r

/-! ## VP8 frame header (`struct v4l2_ctrl_vp8_frame_hdr` and sub-headers)

Fields are modelled with `Nat` for unsigned quantities and `Int` for the
signed (`__s8`) update/delta fields; fixed-size C arrays become `Nat`-indexed
total functions.  Bit-flag tests (`flags & V4L2_VP8_..._FLAG_...`) become
`Bool` fields. -/

/-- Segmentation header (`struct v4l2_vp8_sgmnt_hdr`). -/
structure V4l2Vp8SgmntHdr where
  segment_feature_mode : Nat
  quant_update : Nat → Int
  lf_update : Nat → Int
  segment_probs : Nat → Nat
  flag_enabled : Bool
  flag_update_map : Bool

/-- Loop-filter header (`struct v4l2_vp8_loopfilter_hdr`); the C field
`type` is rendered `lf_type`. -/
structure V4l2Vp8LfHdr where
  lf_type : Nat
  level : Int
  sharpness_level : Int
  flag_adj_enable : Bool
  mb_mode_delta_magnitude : Nat → Int
  ref_frm_delta_magnitude : Nat → Int

/-- Quantization header (`struct v4l2_vp8_quantization_hdr`). -/
structure V4l2Vp8QuantHdr where
  y_ac_qi : Int
  y_dc_delta : Int
  y2_dc_delta : Int
  y2_ac_delta : Int
  uv_dc_delta : Int
  uv_ac_delta : Int

/-- Entropy header (`struct v4l2_vp8_entropy_hdr`). -/
structure V4l2Vp8EntropyHdr where
  coeff_probs : Nat → Nat → Nat → Nat → Nat
  y_mode_probs : Nat → Nat
  uv_mode_probs : Nat → Nat
  mv_probs : Nat → Nat → Nat

/-- Parsed VP8 frame header (`struct v4l2_ctrl_vp8_frame_hdr`).  In this
driver `key_frame = 0` denotes a key frame: `rockchip_vpu_vp8d_run` writes
`VDPU_REG_DEC_CTRL0_PIC_INTER_E` when `hdr->key_frame` is non-zero and the
debug dump prints `!hdr->key_frame` as the key-frame flag. -/
structure V4l2Vp8FrameHdr where
  key_frame : Nat
  version : Nat
  first_part_size : Nat
  first_part_offset : Nat
  macroblock_bit_offset : Nat
  num_dct_parts : Nat
  dct_part_sizes : Nat → Nat
  last_frame : Nat
  golden_frame : Nat
  alt_frame : Nat
  sign_bias_golden : Nat
  sign_bias_alternate : Nat
  prob_skip_false : Nat
  prob_intra : Nat
  prob_last : Nat
  prob_gf : Nat
  sgmnt_hdr : V4l2Vp8SgmntHdr
  lf_hdr : V4l2Vp8LfHdr
  quant_hdr : V4l2Vp8QuantHdr
  entropy_hdr : V4l2Vp8EntropyHdr

/-! ## Probability table packing (`rockchip_vp8d_prob_update`)

Each region below is the write sequence of one block of the C function,
with the running destination pointer made explicit in the byte offsets.
The buffer base is offset 0 (`ctx->hw.vp8d.prob_tbl.cpu`). -/

/-- First 8-byte block: frame-level probabilities (`dst[0..7]` at base 0). -/
def probWritesFirst (h : V4l2Vp8FrameHdr) : List (Nat × Nat) :=
  [(0, h.prob_skip_false), (1, h.prob_intra), (2, h.prob_last), (3, h.prob_gf),
   (4, h.sgmnt_hdr.segment_probs 0), (5, h.sgmnt_hdr.segment_probs 1),
   (6, h.sgmnt_hdr.segment_probs 2), (7, 0)]

/-- Second 8-byte block (`dst += 8`): intra mode probabilities. -/
def probWritesModes (e : V4l2Vp8EntropyHdr) : List (Nat × Nat) :=
  [(8, e.y_mode_probs 0), (9, e.y_mode_probs 1), (10, e.y_mode_probs 2),
   (11, e.y_mode_probs 3), (12, e.uv_mode_probs 0), (13, e.uv_mode_probs 1),
   (14, e.uv_mode_probs 2), (15, 0)]

/-- Third 8-byte block (`dst += 8`): the is-short / sign motion-vector
probabilities and the two `8 + 9` / `9 + 9` entries of each component. -/
def probWritesMvFixed (e : V4l2Vp8EntropyHdr) : List (Nat × Nat) :=
  [(16, e.mv_probs 0 0), (17, e.mv_probs 1 0), (18, e.mv_probs 0 1),
   (19, e.mv_probs 1 1), (20, e.mv_probs 0 (8 + 9)), (21, e.mv_probs 0 (9 + 9)),
   (22, e.mv_probs 1 (8 + 9)), (23, e.mv_probs 1 (9 + 9))]

/-- The double loop `for (i = 0; i < 2; ++i) for (j = 0; j < 8; j += 4)`
writing `mv_probs[i][j + 9 + 0 .. 3]`, starting at byte 24 with `dst += 4`
per inner iteration. -/
def probWritesMvHigh (e : V4l2Vp8EntropyHdr) : List (Nat × Nat) :=
  (List.range 2).flatMap fun i =>
    [0, 4].flatMap fun j =>
      (List.range 4).map fun b => (24 + 8 * i + j + b, e.mv_probs i (j + 9 + b))

/-- The loop `for (i = 0; i < 2; ++i)` writing `mv_probs[i][0 + 2 .. 6 + 2]`
and one unused zero byte, starting at byte 40 with `dst += 8` per
iteration. -/
def probWritesMvLow (e : V4l2Vp8EntropyHdr) : List (Nat × Nat) :=
  (List.range 2).flatMap fun i =>
    ((List.range 7).map fun b => (40 + 8 * i + b, e.mv_probs i (b + 2)))
    ++ [(40 + 8 * i + 7, 0)]

/-- Coefficient probabilities, header part: `dst` reset to base `+ 8 * 7`,
then 4 bytes (`coeff_probs[i][j][k][0..3]`) per `(i, j, k)` triple with
`dst += 4`. -/
def probWritesCoeffHdr (e : V4l2Vp8EntropyHdr) : List (Nat × Nat) :=
  (List.range 4).flatMap fun i =>
    (List.range 8).flatMap fun j =>
      (List.range 3).flatMap fun k =>
        (List.range 4).map fun b =>
          (8 * 7 + 4 * (24 * i + 3 * j + k) + b, e.coeff_probs i j k b)

/-- Coefficient probabilities, footer part: `dst` reset to base `+ 8 * 55`,
then 7 bytes (`coeff_probs[i][j][k][4..10]`) and one unused zero byte per
`(i, j, k)` triple with `dst += 8`. -/
def probWritesCoeffFtr (e : V4l2Vp8EntropyHdr) : List (Nat × Nat) :=
  (List.range 4).flatMap fun i =>
    (List.range 8).flatMap fun j =>
      (List.range 3).flatMap fun k =>
        ((List.range 7).map fun b =>
          (8 * 55 + 8 * (24 * i + 3 * j + k) + b, e.coeff_probs i j k (b + 4)))
        ++ [(8 * 55 + 8 * (24 * i + 3 * j + k) + 7, 0)]

/-- The full write sequence of `rockchip_vp8d_prob_update`, in program
order. -/
def probWrites (h : V4l2Vp8FrameHdr) : List (Nat × Nat) :=
  probWritesFirst h ++ probWritesModes h.entropy_hdr ++ probWritesMvFixed h.entropy_hdr
  ++ probWritesMvHigh h.entropy_hdr ++ probWritesMvLow h.entropy_hdr
  ++ probWritesCoeffHdr h.entropy_hdr ++ probWritesCoeffFtr h.entropy_hdr

/-- State of the probability table buffer after `rockchip_vp8d_prob_update`,
starting from arbitrary previous buffer contents `m0`. -/
def probTable (m0 : Nat → Nat) (h : V4l2Vp8FrameHdr) : Nat → Nat :=
  runWrites m0 (probWrites h)

/-- Size in bytes of `struct vp8_prob_tbl_packed`: the four frame
probabilities, three segment probabilities and padding; the intra mode
block; the motion-vector block; the coefficient block and trailing
padding. -/
def vp8ProbTblPackedSize : Nat :=
  (1 + 1 + 1 + 1 + 3 + 1) + (4 + 3 + 1) + (2 * 19 + 2) + 4 * 8 * 3 * 11 + 96

/-! ## Logical register slots

The numeric slot indices live in `rockchip_vp8d_regs.h`, which is not part
of this tree; only their identity and distinctness matter for the claims
(they index the `rk_regs_value` scratch array).  They are therefore given
arbitrary pairwise distinct values here. -/

def VDPU_REG_REF_PIC_LF_LEVEL_0 : Nat := 100
def VDPU_REG_REF_PIC_FILT_SHARPNESS : Nat := 110
def VDPU_REG_REF_PIC_FILT_TYPE_E : Nat := 111
def VDPU_REG_FILT_MB_ADJ_0 : Nat := 120
def VDPU_REG_REF_PIC_ADJ_0 : Nat := 130
def VDPU_REG_REF_PIC_QUANT_0 : Nat := 140
def VDPU_REG_REF_PIC_QUANT_DELTA_0 : Nat := 150
def VDPU_REG_REF_PIC_QUANT_DELTA_1 : Nat := 151
def VDPU_REG_REF_PIC_QUANT_DELTA_2 : Nat := 152
def VDPU_REG_REF_PIC_QUANT_DELTA_3 : Nat := 153
def VDPU_REG_REF_PIC_QUANT_DELTA_4 : Nat := 154
def VDPU_REG_VP8_ADDR_REF0 : Nat := 200
def VDPU_REG_VP8_ADDR_REF2_5_0 : Nat := 201
def VDPU_REG_VP8_ADDR_REF2_5_1 : Nat := 202
def VDPU_REG_VP8_GREF_SIGN_BIAS_0 : Nat := 203
def VDPU_REG_VP8_AREF_SIGN_BIAS_1 : Nat := 204

/-- Contents of the `rk_regs_value` scratch array after a write list; the
array is zeroed by `memset` at the start of `rockchip_vpu_vp8d_run`. -/
def regFile (ws : List (Nat × Nat)) : Nat → Nat :=
  runWrites (fun _ => 0) ws

/-! ## Loop filter and quantization programming -/

/-- The loop-filter level writes of `rockchip_vp8d_cfg_lf`: a single level
without segmentation, the four per-segment levels verbatim in absolute
mode, and `clamp(level + lf_update[i], 0, 63)` in delta mode. -/
def vp8dCfgLfLevels (h : V4l2Vp8FrameHdr) : List (Nat × Nat) :=
  if ¬ h.sgmnt_hdr.flag_enabled then
    [(VDPU_REG_REF_PIC_LF_LEVEL_0, toU32 h.lf_hdr.level)]
  else if h.sgmnt_hdr.segment_feature_mode ≠ 0 then
    (List.range 4).map fun i =>
      (VDPU_REG_REF_PIC_LF_LEVEL_0 + i, toU32 (h.sgmnt_hdr.lf_update i))
  else
    (List.range 4).map fun i =>
      (VDPU_REG_REF_PIC_LF_LEVEL_0 + i,
       toU32 (cClamp (h.lf_hdr.level + h.sgmnt_hdr.lf_update i) 0 63))

/-- The remaining writes of `rockchip_vp8d_cfg_lf`: sharpness, the filter
type flag, and the per-mode/per-reference adjustment deltas when the
adjustment-enable flag is set. -/
def vp8dCfgLfRest (h : V4l2Vp8FrameHdr) : List (Nat × Nat) :=
  [(VDPU_REG_REF_PIC_FILT_SHARPNESS, toU32 h.lf_hdr.sharpness_level)]
  ++ (if h.lf_hdr.lf_type ≠ 0 then [(VDPU_REG_REF_PIC_FILT_TYPE_E, 1)] else [])
  ++ (if h.lf_hdr.flag_adj_enable then
        (List.range 4).flatMap fun i =>
          [(VDPU_REG_FILT_MB_ADJ_0 + i, toU32 (h.lf_hdr.mb_mode_delta_magnitude i)),
           (VDPU_REG_REF_PIC_ADJ_0 + i, toU32 (h.lf_hdr.ref_frm_delta_magnitude i))]
      else [])

/-- Write sequence of `rockchip_vp8d_cfg_lf`, as `(slot, u32 value)` pairs
in program order. -/
def vp8dCfgLf (h : V4l2Vp8FrameHdr) : List (Nat × Nat) :=
  vp8dCfgLfLevels h ++ vp8dCfgLfRest h

/-- The AC quantizer index writes of `rockchip_vp8d_cfg_qp`: a single index
without segmentation, the four per-segment indices verbatim in absolute
mode, and `clamp(y_ac_qi + quant_update[i], 0, 127)` in delta mode. -/
def vp8dCfgQpQuant (h : V4l2Vp8FrameHdr) : List (Nat × Nat) :=
  if ¬ h.sgmnt_hdr.flag_enabled then
    [(VDPU_REG_REF_PIC_QUANT_0, toU32 h.quant_hdr.y_ac_qi)]
  else if h.sgmnt_hdr.segment_feature_mode ≠ 0 then
    (List.range 4).map fun i =>
      (VDPU_REG_REF_PIC_QUANT_0 + i, toU32 (h.sgmnt_hdr.quant_update i))
  else
    (List.range 4).map fun i =>
      (VDPU_REG_REF_PIC_QUANT_0 + i,
       toU32 (cClamp (h.quant_hdr.y_ac_qi + h.sgmnt_hdr.quant_update i) 0 127))

/-- The five unconditional DC/AC delta writes of `rockchip_vp8d_cfg_qp`. -/
def vp8dCfgQpDeltas (h : V4l2Vp8FrameHdr) : List (Nat × Nat) :=
  [(VDPU_REG_REF_PIC_QUANT_DELTA_0, toU32 h.quant_hdr.y_dc_delta),
   (VDPU_REG_REF_PIC_QUANT_DELTA_1, toU32 h.quant_hdr.y2_dc_delta),
   (VDPU_REG_REF_PIC_QUANT_DELTA_2, toU32 h.quant_hdr.y2_ac_delta),
   (VDPU_REG_REF_PIC_QUANT_DELTA_3, toU32 h.quant_hdr.uv_dc_delta),
   (VDPU_REG_REF_PIC_QUANT_DELTA_4, toU32 h.quant_hdr.uv_ac_delta)]

/-- Write sequence of `rockchip_vp8d_cfg_qp`, as `(slot, u32 value)` pairs
in program order. -/
def vp8dCfgQp (h : V4l2Vp8FrameHdr) : List (Nat × Nat) :=
  vp8dCfgQpQuant h ++ vp8dCfgQpDeltas h

/-! ## Control partition addressing (`rockchip_vp8d_cfg_parts`)

`DEC_8190_ALIGN_MASK` is `0x07`; `x & ~MASK` clears the low three bits
(modelled as `x / 8 * 8`) and `x & MASK` keeps them (modelled as `x % 8`).
All intermediate values are `u32`. -/

/-- `mb_offset_bits = hdr->first_part_offset * 8 + hdr->macroblock_bit_offset + 8`. -/
def mbOffsetBits (h : V4l2Vp8FrameHdr) : Nat :=
  u32 (h.first_part_offset * 8 + h.macroblock_bit_offset + 8)

/-- `mb_offset_bytes = mb_offset_bits / 8`. -/
def mbOffsetBytes (h : V4l2Vp8FrameHdr) : Nat := mbOffsetBits h / 8

/-- The byte offset programmed (plus `src_dma`) into
`VDPU_REG_VP8_ADDR_CTRL_PART`: `mb_offset_bytes & ~DEC_8190_ALIGN_MASK`. -/
def mbAlignedOffset (h : V4l2Vp8FrameHdr) : Nat :=
  mbOffsetBytes h / 8 * 8

/-- `mb_start_bits = mb_offset_bits - (mb_offset_bytes & ~MASK) * 8`, the
value programmed into `VDPU_REG_DEC_CTRL2_STRM1_START_BIT`. -/
def mbStartBits (h : V4l2Vp8FrameHdr) : Nat :=
  toU32 ((mbOffsetBits h : Int) - (mbAlignedOffset h : Int) * 8)

/-- `mb_size = hdr->first_part_size - (mb_offset_bytes - hdr->first_part_offset)
+ (mb_offset_bytes & MASK)`, the value programmed into
`VDPU_REG_DEC_CTRL6_STREAM1_LEN`. -/
def mbSize (h : V4l2Vp8FrameHdr) : Nat :=
  toU32 ((h.first_part_size : Int)
    - ((mbOffsetBytes h : Int) - (h.first_part_offset : Int))
    + (mbOffsetBytes h % 8 : Nat))

/-! ## Reference frame addressing (`rockchip_vp8d_cfg_ref`) -/

/-- The context state `rockchip_vp8d_cfg_ref` consults: the number of
allocated capture buffers (`ctx->vq_dst.num_buffers`), the DMA address of
each allocated capture buffer (`ctx->dst_bufs[i]`), and the DMA address of
the current run's output buffer (`ctx->run.dst`). -/
structure RefState where
  num_buffers : Nat
  dst_bufs : Nat → Nat
  cur_dst : Nat

/-- Write sequence of `rockchip_vp8d_cfg_ref` in program order.  Note that
for the last-frame register the C code tests `!hdr->key_frame` (key frame)
and then programs the current output buffer address, ignoring the indexed
buffer it just resolved. -/
def vp8dCfgRef (h : V4l2Vp8FrameHdr) (s : RefState) : List (Nat × Nat) :=
  (let bufLast :=
    if s.num_buffers ≤ h.last_frame then s.cur_dst else s.dst_bufs h.last_frame
   if h.key_frame = 0 then [(VDPU_REG_VP8_ADDR_REF0, s.cur_dst)]
   else [(VDPU_REG_VP8_ADDR_REF0, bufLast)])
  ++ (let bufGolden :=
        if s.num_buffers ≤ h.golden_frame then s.cur_dst
        else s.dst_bufs h.golden_frame
      [(VDPU_REG_VP8_ADDR_REF2_5_0, bufGolden)])
  ++ (if h.sign_bias_golden ≠ 0 then [(VDPU_REG_VP8_GREF_SIGN_BIAS_0, 1)] else [])
  ++ (let bufAlt :=
        if s.num_buffers ≤ h.alt_frame then s.cur_dst
        else s.dst_bufs h.alt_frame
      [(VDPU_REG_VP8_ADDR_REF2_5_1, bufAlt)])
  ++ (if h.sign_bias_alternate ≠ 0 then [(VDPU_REG_VP8_AREF_SIGN_BIAS_1, 1)] else [])

/-! ## Segment map lifetime (`rockchip_vpu_vp8d_init` / `rockchip_vpu_vp8d_run`) -/

/-- Contents of the segment-map buffer right after codec init: allocated
and then fully cleared by `memset(..., 0, size)`. -/
def segmentMapInit (size : Nat) : List Nat := List.replicate size 0

/-- The segment-map step at the start of `rockchip_vpu_vp8d_run`:
`if (!hdr->key_frame && ctx->hw.vp8d.segment_map.cpu) memset(..., 0, size)`.
`none` models a NULL `cpu` pointer. -/
def vp8dRunSegmentReset (h : V4l2Vp8FrameHdr) (seg : Option (List Nat)) :
    Option (List Nat) :=
  match seg with
  | none => none
  | some m =>
    if h.key_frame = 0 then some (List.replicate m.length 0) else some m

/-! ## VP8 codec init (`rockchip_vpu_vp8d_init`) -/

/-- Hardware variant type (`enum rockchip_vpu_type`). -/
inductive RockchipVpuType where
  | rk_vpu_none
  | rk3288_vpu
  | rk3229_vpu
deriving DecidableEq, Repr

/-- Error numbers used by the init path. -/
def EPERM : Int := 1

def ENOMEM : Int := 12

/-- Outcome oracle for the two `rockchip_vpu_aux_buf_alloc` calls made by
init (`dma_alloc_coherent` success or failure). -/
structure AuxAllocOracle where
  segment_map_ok : Bool
  prob_tbl_ok : Bool
deriving DecidableEq, Repr

/-- Codec-private hardware context (`struct rockchip_vpu_vp8d_hw_ctx`):
which scratch buffers are live after init.  The segment map carries its
contents; the probability table only its allocated size. -/
structure Vp8dHwCtx where
  segment_map : Option (List Nat)
  prob_tbl : Option Nat
deriving DecidableEq, Repr

def MB_DIM : Nat := 16

/-- The kernel macro `DIV_ROUND_UP`. -/
def divRoundUp (a b : Nat) : Nat := (a + b - 1) / b

/-- `MB_WIDTH(x) = DIV_ROUND_UP(x, MB_DIM)`. -/
def mbWidth (x : Nat) : Nat := divRoundUp x MB_DIM

/-- `MB_HEIGHT(y) = DIV_ROUND_UP(y, MB_DIM)`. -/
def mbHeight (y : Nat) : Nat := divRoundUp y MB_DIM

/-- `round_up(n, 64)` for the power-of-two alignment used by init. -/
def roundUp64 (n : Nat) : Nat := divRoundUp n 64 * 64

/-- `segment_map_size = round_up(DIV_ROUND_UP(mb_width * mb_height, 4), 64)`. -/
def segmentMapSize (w hgt : Nat) : Nat :=
  roundUp64 (divRoundUp (mbWidth w * mbHeight hgt) 4)

/-- Model of `rockchip_vpu_vp8d_init`: an unknown variant fails with
`-EPERM` before any allocation; a segment-map allocation failure returns
the allocator's `-ENOMEM` with nothing live; a probability-table allocation
failure frees the segment map before returning `-ENOMEM`; on success the
segment map is zero-filled and the probability table has the size of
`struct vp8_prob_tbl_packed`. -/
def vp8dInit (vt : RockchipVpuType) (alloc : AuxAllocOracle) (w hgt : Nat) :
    Int × Vp8dHwCtx :=
  if vt = .rk3229_vpu ∨ vt = .rk3288_vpu then
    if alloc.segment_map_ok then
      if alloc.prob_tbl_ok then
        (0, { segment_map := some (segmentMapInit (segmentMapSize w hgt))
              prob_tbl := some vp8ProbTblPackedSize })
      else
        (-ENOMEM, { segment_map := none, prob_tbl := none })
    else
      (-ENOMEM, { segment_map := none, prob_tbl := none })
  else
    (-EPERM, { segment_map := none, prob_tbl := none })

/-! ## Concrete inputs used by witnesses and counterexamples -/

/-- An all-zero segmentation header. -/
def zeroSgmntHdr : V4l2Vp8SgmntHdr :=
  { segment_feature_mode := 0
    quant_update := fun _ => 0
    lf_update := fun _ => 0
    segment_probs := fun _ => 0
    flag_enabled := false
    flag_update_map := false }

/-- An all-zero loop-filter header. -/
def zeroLfHdr : V4l2Vp8LfHdr :=
  { lf_type := 0
    level := 0
    sharpness_level := 0
    flag_adj_enable := false
    mb_mode_delta_magnitude := fun _ => 0
    ref_frm_delta_magnitude := fun _ => 0 }

/-- An all-zero quantization header. -/
def zeroQuantHdr : V4l2Vp8QuantHdr :=
  { y_ac_qi := 0, y_dc_delta := 0, y2_dc_delta := 0, y2_ac_delta := 0
    uv_dc_delta := 0, uv_ac_delta := 0 }

/-- An entropy header whose probabilities encode their own indices, so that
distinct entries have distinct values. -/
def idxEntropyHdr : V4l2Vp8EntropyHdr :=
  { coeff_probs := fun i j k b => 3 + i + 5 * j + 41 * k + 129 * b
    y_mode_probs := fun m => 7 + m
    uv_mode_probs := fun m => 11 + m
    mv_probs := fun i t => 13 + 20 * i + t }

/-- A baseline inter-frame header used to build concrete test inputs. -/
def baseHdr : V4l2Vp8FrameHdr :=
  { key_frame := 1
    version := 0
    first_part_size := 100
    first_part_offset := 10
    macroblock_bit_offset := 3
    num_dct_parts := 1
    dct_part_sizes := fun _ => 0
    last_frame := 0
    golden_frame := 0
    alt_frame := 0
    sign_bias_golden := 0
    sign_bias_alternate := 0
    prob_skip_false := 201
    prob_intra := 202
    prob_last := 203
    prob_gf := 204
    sgmnt_hdr := zeroSgmntHdr
    lf_hdr := zeroLfHdr
    quant_hdr := zeroQuantHdr
    entropy_hdr := idxEntropyHdr }

/-- A key-frame header (`key_frame = 0` in this driver) with an in-range
last-frame index. -/
def keyFrameHdr : V4l2Vp8FrameHdr :=
  { baseHdr with key_frame := 0 }

/-- A reference-frame state with two allocated capture buffers whose
addresses differ from the current output buffer's address. -/
def refSt : RefState :=
  { num_buffers := 2, dst_bufs := fun i => 1000 + i, cur_dst := 2000 }

/-- The literal reading of claim C7: each of the last/golden/alt-ref
addresses is resolved by its index into the output-buffer history, falling
back to the current Job's output address exactly when the index is out of
range — for every FrameHeader, the last-frame register included. -/
def refAddrByIndexClaim : Prop :=
  ∀ (h : V4l2Vp8FrameHdr) (s : RefState),
    regFile (vp8dCfgRef h s) VDPU_REG_VP8_ADDR_REF0
      = (if s.num_buffers ≤ h.last_frame then s.cur_dst
         else s.dst_bufs h.last_frame) ∧
    regFile (vp8dCfgRef h s) VDPU_REG_VP8_ADDR_REF2_5_0
      = (if s.num_buffers ≤ h.golden_frame then s.cur_dst
         else s.dst_bufs h.golden_frame) ∧
    regFile (vp8dCfgRef h s) VDPU_REG_VP8_ADDR_REF2_5_1
      = (if s.num_buffers ≤ h.alt_frame then s.cur_dst
         else s.dst_bufs h.alt_frame)

/-- The literal reading of claim C8's run-time clause: the segment map is
re-zeroed exactly when a non-key frame's header indicates segmentation was
not updated, and persists unchanged otherwise. -/
def segResetOnNonKeyClaim : Prop :=
  ∀ (h : V4l2Vp8FrameHdr) (m : List Nat),
    vp8dRunSegmentReset h (some m)
      = if h.key_frame ≠ 0 ∧ h.sgmnt_hdr.flag_update_map = false
        then some (List.replicate m.length 0)
        else some m

/-- A header enabling segmentation in absolute mode, with per-segment
filter levels and quantizer indices encoding their segment index. -/
def absModeHdr : V4l2Vp8FrameHdr :=
  { baseHdr with
      sgmnt_hdr :=
        { zeroSgmntHdr with
            flag_enabled := true
            segment_feature_mode := 1
            lf_update := fun i => 30 + i
            quant_update := fun i => 60 + i } }

/-- A header enabling segmentation in delta mode with deltas that overflow
the clamp ranges. -/
def deltaModeHdr : V4l2Vp8FrameHdr :=
  { baseHdr with
      lf_hdr := { zeroLfHdr with level := 60 }
      quant_hdr := { zeroQuantHdr with y_ac_qi := 120 }
      sgmnt_hdr :=
        { zeroSgmntHdr with
            flag_enabled := true
            lf_update := fun _ => 10
            quant_update := fun _ => 10 } }

/-- A context holding one buffer in each queue and no bound run. -/
def witCtx0 : SchedCtx :=
  { src_queue := [10], dst_queue := [20], runSrc := none, runDst := none }

/-- An idle device with context 0 at the head of the readiness queue. -/
def witDev : Dev :=
  { ready := [0], running := false, suspended := false, current := none
    timer := none, completed := [], resets := 0, ctxs := fun _ => witCtx0 }

/-- A context whose run is bound to buffers 10/20 and whose queues are
drained. -/
def witJobCtx : SchedCtx :=
  { src_queue := [], dst_queue := [], runSrc := some 10, runDst := some 20 }

/-- A schedulable context holding one buffer in each queue. -/
def witReadyCtx : SchedCtx :=
  { src_queue := [30], dst_queue := [40], runSrc := none, runDst := none }

/-- A device with context 0 dispatched (watchdog armed) and context 1 not
yet submitted. -/
def witDevRunning : Dev :=
  { ready := [], running := true, suspended := false, current := some 0
    timer := some watchdogTimeoutMs, completed := [], resets := 0
    ctxs := fun i => if i = 0 then witJobCtx else witReadyCtx }

/-! ## Generic lemmas about write lists -/

theorem runWrites_apply_of_forall_ne (ws : List (Nat × Nat)) (m : Nat → Nat)
    (a : Nat) (hne : ∀ p ∈ ws, p.1 ≠ a) : runWrites m ws a = m a := by
  induction ws generalizing m with
  | nil => rfl
  | cons w t ih =>
    have hw : w.1 ≠ a := hne w (List.mem_cons_self w t)
    have ht : ∀ p ∈ t, p.1 ≠ a := fun p hp => hne p (List.mem_cons_of_mem w hp)
    simp only [runWrites, List.foldl_cons] at *
    rw [ih _ ht]
    simp [store, Ne.symm hw]

theorem runWrites_apply_of_mem (ws : List (Nat × Nat)) (m : Nat → Nat)
    (a v : Nat) (hnd : (ws.map Prod.fst).Nodup) (hmem : (a, v) ∈ ws) :
    runWrites m ws a = v := by
  induction ws generalizing m with
  | nil => cases hmem
  | cons w t ih =>
    simp only [List.map_cons, List.nodup_cons] at hnd
    rcases List.mem_cons.mp hmem with heq | hmem2
    · subst heq
      have ht : ∀ p ∈ t, p.1 ≠ a := by
        intro p hp hpa
        have hmm : p.1 ∈ t.map Prod.fst := List.mem_map_of_mem Prod.fst hp
        rw [hpa] at hmm
        exact hnd.1 hmm
      show runWrites (store m a v) t a = v
      rw [runWrites_apply_of_forall_ne t _ a ht]
      simp [store]
    · show runWrites (store m w.1 w.2) t a = v
      exact ih _ hnd.2 hmem2

/-! ## Scheduler helper lemmas -/

theorem ready_nodup_tryContextLocked (d : Dev) (c : CtxId)
    (hnd : d.ready.Nodup) : (tryContextLocked d c).ready.Nodup := by
  unfold tryContextLocked
  split_ifs with h1 h2
  · exact hnd
  · rw [List.nodup_append]
    refine ⟨hnd, List.nodup_singleton c, ?_⟩
    intro x hx hxc
    simp only [List.mem_singleton] at hxc
    subst hxc
    exact h1 hx
  · exact hnd

theorem ready_nodup_tryRun (d : Dev) (hnd : d.ready.Nodup) :
    (tryRun d).ready.Nodup := by
  unfold tryRun
  rcases hr : d.ready with _ | ⟨c, rest⟩
  · simp [hr]
  · rw [hr] at hnd
    by_cases hs : d.suspended
    · simpa [hr, hs] using hnd
    · by_cases hrg : d.running
      · simpa [hr, hs, hrg] using hnd
      · simpa [hr, hs, hrg] using hnd.of_cons

theorem ready_nodup_runDone (d : Dev) (c : CtxId) (r : Vb2BufState)
    (hnd : d.ready.Nodup) : (runDone d c r).ready.Nodup := by
  unfold runDone
  exact ready_nodup_tryRun _ (ready_nodup_tryContextLocked _ c hnd)

theorem ready_nodup_schedStep (d : Dev) (op : SchedOp)
    (hnd : d.ready.Nodup) : (schedStep d op).ready.Nodup := by
  cases op with
  | submit c => exact ready_nodup_tryRun _ (ready_nodup_tryContextLocked _ c hnd)
  | complete c r => exact ready_nodup_runDone d c r hnd

theorem tryRun_dispatch (d : Dev) (c : CtxId) (rest : List CtxId)
    (s : BufId) (ss : List BufId) (b : BufId) (bs : List BufId)
    (hready : d.ready = c :: rest) (hrun : d.running = false)
    (hsusp : d.suspended = false)
    (hsrc : (d.ctxs c).src_queue = s :: ss)
    (hdst : (d.ctxs c).dst_queue = b :: bs) :
    (tryRun d).ready = rest ∧ (tryRun d).current = some c ∧
    (tryRun d).running = true ∧ (tryRun d).timer = some watchdogTimeoutMs ∧
    ((tryRun d).ctxs c).runSrc = some s ∧ ((tryRun d).ctxs c).runDst = some b ∧
    ((tryRun d).ctxs c).src_queue = ss ∧ ((tryRun d).ctxs c).dst_queue = bs := by
  simp only [tryRun, hready, hrun, hsusp, setCtx, dequeueRunLocked]
  simp [hsrc, hdst]

/-! ## Claim C1 -/

/-- C1: with the engine idle and not suspended, `rockchip_vpu_try_run`
removes the Session at the head of the readiness queue and binds into the
new Job exactly the head Buffer of its input queue and the head Buffer of
its output queue, leaving the queue tails in place (FIFO order across
frames). -/
theorem c1_try_dispatch_binds_heads (d : Dev) (c : CtxId) (rest : List CtxId)
    (s : BufId) (ss : List BufId) (b : BufId) (bs : List BufId)
    (hready : d.ready = c :: rest) (hrun : d.running = false)
    (hsusp : d.suspended = false)
    (hsrc : (d.ctxs c).src_queue = s :: ss)
    (hdst : (d.ctxs c).dst_queue = b :: bs) :
    (tryRun d).ready = rest ∧ (tryRun d).current = some c ∧
    (tryRun d).running = true ∧
    ((tryRun d).ctxs c).runSrc = some s ∧ ((tryRun d).ctxs c).runDst = some b ∧
    ((tryRun d).ctxs c).src_queue = ss ∧ ((tryRun d).ctxs c).dst_queue = bs := by
  simp only [tryRun, hready, hrun, hsusp, setCtx, dequeueRunLocked]
  simp [hsrc, hdst]

/-- Witness for C1 at a concrete device state. -/
theorem c1_witness :
    (tryRun witDev).ready = [] ∧ (tryRun witDev).current = some 0 ∧
    (tryRun witDev).running = true ∧
    ((tryRun witDev).ctxs 0).runSrc = some 10 ∧
    ((tryRun witDev).ctxs 0).runDst = some 20 ∧
    ((tryRun witDev).ctxs 0).src_queue = [] ∧
    ((tryRun witDev).ctxs 0).dst_queue = [] :=
  c1_try_dispatch_binds_heads witDev 0 [] 10 [] 20 [] rfl rfl rfl rfl rfl

/-! ## Claim C2 -/

/-- C2: `__rockchip_vpu_try_context_locked` appends the Session to the tail
of the readiness queue only if it is not already queued and both its queues
are non-empty, and is a no-op otherwise; consequently, across any sequence
of submit (`rockchip_vpu_try_context`) and complete
(`rockchip_vpu_run_done`) operations a Session appears in the readiness
queue at most once. -/
theorem c2_ready_queue_at_most_once :
    (∀ (d : Dev) (c : CtxId), c ∈ d.ready → tryContextLocked d c = d) ∧
    (∀ (d : Dev) (c : CtxId), c ∉ d.ready →
      (d.ctxs c).dst_queue ≠ [] → (d.ctxs c).src_queue ≠ [] →
      (tryContextLocked d c).ready = d.ready ++ [c]) ∧
    (∀ (d : Dev) (c : CtxId),
      ¬((d.ctxs c).dst_queue ≠ [] ∧ (d.ctxs c).src_queue ≠ []) →
      tryContextLocked d c = d) ∧
    (∀ (ops : List SchedOp) (d : Dev), d.ready.Nodup →
      ((ops.foldl schedStep d).ready).Nodup) := by
  refine ⟨?_, ?_, ?_, ?_⟩
  · intro d c hmem
    simp [tryContextLocked, hmem]
  · intro d c hmem hdst hsrc
    simp [tryContextLocked, hmem, hdst, hsrc]
  · intro d c hq
    unfold tryContextLocked
    by_cases h1 : c ∈ d.ready
    · simp [h1]
    · simp [h1, hq]
  · intro ops
    induction ops with
    | nil => intro d hnd; exact hnd
    | cons op t ih =>
      intro d hnd
      exact ih _ (ready_nodup_schedStep d op hnd)

/-- Witness for C2: concrete no-op, append and invariant-preservation
instances. -/
theorem c2_witness :
    tryContextLocked witDev 0 = witDev ∧
    (tryContextLocked witDev 1).ready = [0, 1] ∧
    tryContextLocked witDevRunning 0 = witDevRunning ∧
    ((([SchedOp.submit 1, SchedOp.complete 0 .done].foldl schedStep
        witDevRunning).ready).Nodup) := by
  refine ⟨?_, ?_, ?_, ?_⟩
  · exact c2_ready_queue_at_most_once.1 witDev 0 (by decide)
  · exact c2_ready_queue_at_most_once.2.1 witDev 1 (by decide) (by decide) (by decide)
  · exact c2_ready_queue_at_most_once.2.2.1 witDevRunning 0 (by decide)
  · exact c2_ready_queue_at_most_once.2.2.2 _ witDevRunning (by decide)

/-! ## Claim C5 -/

/-- C5: a dispatched Job never completed by the hardware path is recovered
by the watchdog armed at the configured 2000 ms deadline: the codec `reset`
hook runs exactly once, both bound Buffers are completed exactly once with
the error state through the normal completion path, and immediately
afterwards the engine is idle and accepts a new dispatch; the hardware
completion path instead cancels the armed watchdog. -/
theorem c5_watchdog_recovers_engine (d : Dev) (c : CtxId) (s b : BufId)
    (hcur : d.current = some c)
    (hsrc : (d.ctxs c).runSrc = some s) (hdst : (d.ctxs c).runDst = some b)
    (hready : d.ready = []) (hq : (d.ctxs c).src_queue = [])
    (hsusp : d.suspended = false) :
    (watchdogFire d).resets = d.resets + 1 ∧
    (watchdogFire d).completed =
      d.completed ++ [(s, Vb2BufState.error), (b, Vb2BufState.error)] ∧
    (watchdogFire d).running = false ∧
    (watchdogFire d).current = none ∧
    (watchdogFire d).timer = none ∧
    (∀ (c2 : CtxId) (s2 : BufId) (ss2 : List BufId) (b2 : BufId) (bs2 : List BufId),
      ((watchdogFire d).ctxs c2).src_queue = s2 :: ss2 →
      ((watchdogFire d).ctxs c2).dst_queue = b2 :: bs2 →
      (tryContext (watchdogFire d) c2).current = some c2 ∧
      (tryContext (watchdogFire d) c2).running = true) ∧
    (hwIrqComplete d).timer = none ∧
    (∀ (d2 : Dev) (c2 : CtxId) (rest2 : List CtxId) (s2 : BufId)
       (ss2 : List BufId) (b2 : BufId) (bs2 : List BufId),
      d2.ready = c2 :: rest2 → d2.running = false → d2.suspended = false →
      (d2.ctxs c2).src_queue = s2 :: ss2 → (d2.ctxs c2).dst_queue = b2 :: bs2 →
      (tryRun d2).timer = some 2000) := by
  have key : watchdogFire d =
      { d with
          timer := none
          resets := d.resets + 1
          completed := d.completed ++ [(s, Vb2BufState.error), (b, Vb2BufState.error)]
          current := none
          running := false } := by
    simp only [watchdogFire, hcur, runDone, decReset]
    simp [tryContextLocked, tryRun, hready, hq, hsrc, hdst]
  have key2 : hwIrqComplete d =
      { d with
          timer := none
          completed := d.completed ++ [(s, Vb2BufState.done), (b, Vb2BufState.done)]
          current := none
          running := false } := by
    simp only [hwIrqComplete, hcur, runDone]
    simp [tryContextLocked, tryRun, hready, hq, hsrc, hdst]
  refine ⟨by rw [key], by rw [key], by rw [key], by rw [key], by rw [key],
    ?_, by rw [key2], ?_⟩
  · intro c2 s2 ss2 b2 bs2 h1 h2
    rw [key] at h1 h2 ⊢
    dsimp only at h1 h2
    unfold tryContext
    have hTCL : ∀ dd : Dev, (tryContextLocked dd c2).running = dd.running ∧
        (tryContextLocked dd c2).suspended = dd.suspended ∧
        (tryContextLocked dd c2).ctxs = dd.ctxs := by
      intro dd
      unfold tryContextLocked
      split_ifs <;> exact ⟨rfl, rfl, rfl⟩
    have hds := tryRun_dispatch (tryContextLocked
        { d with
            timer := none
            resets := d.resets + 1
            completed := d.completed ++ [(s, Vb2BufState.error), (b, Vb2BufState.error)]
            current := none
            running := false } c2) c2 [] s2 ss2 b2 bs2
      (by simp [tryContextLocked, hready, h1, h2])
      (by rw [(hTCL _).1])
      (by rw [(hTCL _).2.1]; exact hsusp)
      (by rw [(hTCL _).2.2]; exact h1)
      (by rw [(hTCL _).2.2]; exact h2)
    exact ⟨hds.2.1, hds.2.2.1⟩
  · intro d2 c2 rest2 s2 ss2 b2 bs2 hr2 hg2 hs2 hq1 hq2
    exact (tryRun_dispatch d2 c2 rest2 s2 ss2 b2 bs2 hr2 hg2 hs2 hq1 hq2).2.2.2.1

/-- Witness for C5 at a concrete device state with an armed, in-flight
Job. -/
theorem c5_witness :
    (watchdogFire witDevRunning).resets = witDevRunning.resets + 1 ∧
    (watchdogFire witDevRunning).completed =
      witDevRunning.completed ++ [(10, Vb2BufState.error), (20, Vb2BufState.error)] ∧
    (watchdogFire witDevRunning).running = false ∧
    (tryContext (watchdogFire witDevRunning) 1).current = some 1 ∧
    (tryContext (watchdogFire witDevRunning) 1).running = true ∧
    (hwIrqComplete witDevRunning).timer = none := by
  have t := c5_watchdog_recovers_engine witDevRunning 0 10 20
    (by decide) (by decide) (by decide) (by decide) (by decide) (by decide)
  have hd := t.2.2.2.2.2.1 1 30 [] 40 [] (by decide) (by decide)
  exact ⟨t.1, t.2.1, t.2.2.1, hd.1, hd.2, t.2.2.2.2.2.2.1⟩

/-! ## Probability table layout lemmas -/

theorem probWritesFirst_fst (h : V4l2Vp8FrameHdr) :
    (probWritesFirst h).map Prod.fst = List.range' 0 8 := rfl

theorem probWritesModes_fst (e : V4l2Vp8EntropyHdr) :
    (probWritesModes e).map Prod.fst = List.range' 8 8 := rfl

theorem probWritesMvFixed_fst (e : V4l2Vp8EntropyHdr) :
    (probWritesMvFixed e).map Prod.fst = List.range' 16 8 := rfl

theorem flatMap_range_range' (s c n : Nat) (f : Nat → Nat)
    (hf : ∀ t, f t = s + c * t) :
    (List.range n).flatMap (fun t => List.range' (f t) c) = List.range' s (c * n) := by
  induction n with
  | zero => simp
  | succ m ih =>
    rw [List.range_succ, List.flatMap_append, ih]
    simp only [List.flatMap_cons, List.flatMap_nil, List.append_nil]
    rw [hf m, List.range'_append_1]
    congr 1
    ring

theorem probWritesMvHigh_fst (e : V4l2Vp8EntropyHdr) :
    (probWritesMvHigh e).map Prod.fst = List.range' 24 16 := rfl

theorem probWritesMvLow_fst (e : V4l2Vp8EntropyHdr) :
    (probWritesMvLow e).map Prod.fst = List.range' 40 16 := rfl

theorem coeffHdr_inner3_fst (e : V4l2Vp8EntropyHdr) (i j k : Nat) :
    (((List.range 4).map fun b =>
        (8 * 7 + 4 * (24 * i + 3 * j + k) + b, e.coeff_probs i j k b)).map Prod.fst)
    = List.range' (8 * 7 + 4 * (24 * i + 3 * j + k)) 4 := by
  rw [List.map_map, List.range'_eq_map_range]
  rfl

theorem coeffHdr_inner2_fst (e : V4l2Vp8EntropyHdr) (i j : Nat) :
    ((((List.range 3).flatMap fun k => (List.range 4).map fun b =>
        (8 * 7 + 4 * (24 * i + 3 * j + k) + b, e.coeff_probs i j k b)).map Prod.fst))
    = List.range' (8 * 7 + 4 * (24 * i + 3 * j)) 12 := by
  rw [List.map_flatMap]
  simp only [coeffHdr_inner3_fst]
  exact flatMap_range_range' (8 * 7 + 4 * (24 * i + 3 * j)) 4 3
    (fun k => 8 * 7 + 4 * (24 * i + 3 * j + k)) (fun t => by ring)

theorem coeffHdr_inner1_fst (e : V4l2Vp8EntropyHdr) (i : Nat) :
    ((((List.range 8).flatMap fun j => (List.range 3).flatMap fun k =>
        (List.range 4).map fun b =>
          (8 * 7 + 4 * (24 * i + 3 * j + k) + b, e.coeff_probs i j k b)).map Prod.fst))
    = List.range' (8 * 7 + 4 * (24 * i)) 96 := by
  rw [List.map_flatMap]
  simp only [coeffHdr_inner2_fst]
  exact flatMap_range_range' (8 * 7 + 4 * (24 * i)) 12 8
    (fun j => 8 * 7 + 4 * (24 * i + 3 * j)) (fun t => by ring)

theorem probWritesCoeffHdr_fst (e : V4l2Vp8EntropyHdr) :
    (probWritesCoeffHdr e).map Prod.fst = List.range' 56 384 := by
  unfold probWritesCoeffHdr
  rw [List.map_flatMap]
  simp only [coeffHdr_inner1_fst]
  exact flatMap_range_range' 56 96 4 (fun i => 8 * 7 + 4 * (24 * i)) (fun t => by ring)

theorem coeffFtr_inner3_fst (e : V4l2Vp8EntropyHdr) (i j k : Nat) :
    (((((List.range 7).map fun b =>
          (8 * 55 + 8 * (24 * i + 3 * j + k) + b, e.coeff_probs i j k (b + 4)))
        ++ [(8 * 55 + 8 * (24 * i + 3 * j + k) + 7, 0)]).map Prod.fst))
    = List.range' (8 * 55 + 8 * (24 * i + 3 * j + k)) 8 := by
  rw [List.map_append, List.map_map]
  have h1 : (List.range 7).map (Prod.fst ∘ fun b =>
      (8 * 55 + 8 * (24 * i + 3 * j + k) + b, e.coeff_probs i j k (b + 4)))
      = List.range' (8 * 55 + 8 * (24 * i + 3 * j + k)) 7 := by
    rw [List.range'_eq_map_range]
    rfl
  rw [h1]
  exact List.range'_append_1 _ 7 1

theorem coeffFtr_inner2_fst (e : V4l2Vp8EntropyHdr) (i j : Nat) :
    ((((List.range 3).flatMap fun k =>
        ((List.range 7).map fun b =>
          (8 * 55 + 8 * (24 * i + 3 * j + k) + b, e.coeff_probs i j k (b + 4)))
        ++ [(8 * 55 + 8 * (24 * i + 3 * j + k) + 7, 0)]).map Prod.fst))
    = List.range' (8 * 55 + 8 * (24 * i + 3 * j)) 24 := by
  rw [List.map_flatMap]
  simp only [coeffFtr_inner3_fst]
  exact flatMap_range_range' (8 * 55 + 8 * (24 * i + 3 * j)) 8 3
    (fun k => 8 * 55 + 8 * (24 * i + 3 * j + k)) (fun t => by ring)

theorem coeffFtr_inner1_fst (e : V4l2Vp8EntropyHdr) (i : Nat) :
    ((((List.range 8).flatMap fun j => (List.range 3).flatMap fun k =>
        ((List.range 7).map fun b =>
          (8 * 55 + 8 * (24 * i + 3 * j + k) + b, e.coeff_probs i j k (b + 4)))
        ++ [(8 * 55 + 8 * (24 * i + 3 * j + k) + 7, 0)]).map Prod.fst))
    = List.range' (8 * 55 + 8 * (24 * i)) 192 := by
  rw [List.map_flatMap]
  simp only [coeffFtr_inner2_fst]
  exact flatMap_range_range' (8 * 55 + 8 * (24 * i)) 24 8
    (fun j => 8 * 55 + 8 * (24 * i + 3 * j)) (fun t => by ring)

theorem probWritesCoeffFtr_fst (e : V4l2Vp8EntropyHdr) :
    (probWritesCoeffFtr e).map Prod.fst = List.range' 440 768 := by
  unfold probWritesCoeffFtr
  rw [List.map_flatMap]
  simp only [coeffFtr_inner1_fst]
  exact flatMap_range_range' 440 192 4 (fun i => 8 * 55 + 8 * (24 * i)) (fun t => by ring)

theorem range'_glue (s m n k j : Nat) (hk : k = s + m) (hj : j = n + m) :
    List.range' s m ++ List.range' k n = List.range' s j := by
  subst hk
  subst hj
  exact List.range'_append_1 s m n

theorem probWrites_fst (h : V4l2Vp8FrameHdr) :
    (probWrites h).map Prod.fst = List.range 1208 := by
  simp only [probWrites, List.map_append, probWritesFirst_fst, probWritesModes_fst,
    probWritesMvFixed_fst, probWritesMvHigh_fst, probWritesMvLow_fst,
    probWritesCoeffHdr_fst, probWritesCoeffFtr_fst, List.append_assoc,
    List.range_eq_range']
  rw [range'_glue 56 384 768 440 1152 (by norm_num) (by norm_num)]
  rw [range'_glue 40 16 1152 56 1168 (by norm_num) (by norm_num)]
  rw [range'_glue 24 16 1168 40 1184 (by norm_num) (by norm_num)]
  rw [range'_glue 16 8 1184 24 1192 (by norm_num) (by norm_num)]
  rw [range'_glue 8 8 1192 16 1200 (by norm_num) (by norm_num)]
  rw [range'_glue 0 8 1200 8 1208 (by norm_num) (by norm_num)]

theorem probWrites_fst_nodup (h : V4l2Vp8FrameHdr) :
    ((probWrites h).map Prod.fst).Nodup := by
  rw [probWrites_fst]
  exact List.nodup_range 1208

theorem mem_probWrites_of_first {h : V4l2Vp8FrameHdr} {p : Nat × Nat}
    (hp : p ∈ probWritesFirst h) : p ∈ probWrites h := by
  unfold probWrites
  simp only [List.mem_append]
  tauto

theorem mem_probWrites_of_modes {h : V4l2Vp8FrameHdr} {p : Nat × Nat}
    (hp : p ∈ probWritesModes h.entropy_hdr) : p ∈ probWrites h := by
  unfold probWrites
  simp only [List.mem_append]
  tauto

theorem mem_probWrites_of_mvFixed {h : V4l2Vp8FrameHdr} {p : Nat × Nat}
    (hp : p ∈ probWritesMvFixed h.entropy_hdr) : p ∈ probWrites h := by
  unfold probWrites
  simp only [List.mem_append]
  tauto

theorem mem_probWrites_of_mvHigh {h : V4l2Vp8FrameHdr} {p : Nat × Nat}
    (hp : p ∈ probWritesMvHigh h.entropy_hdr) : p ∈ probWrites h := by
  unfold probWrites
  simp only [List.mem_append]
  tauto

theorem mem_probWrites_of_mvLow {h : V4l2Vp8FrameHdr} {p : Nat × Nat}
    (hp : p ∈ probWritesMvLow h.entropy_hdr) : p ∈ probWrites h := by
  unfold probWrites
  simp only [List.mem_append]
  tauto

theorem mem_probWrites_of_coeffHdr {h : V4l2Vp8FrameHdr} {p : Nat × Nat}
    (hp : p ∈ probWritesCoeffHdr h.entropy_hdr) : p ∈ probWrites h := by
  unfold probWrites
  simp only [List.mem_append]
  tauto

theorem mem_probWrites_of_coeffFtr {h : V4l2Vp8FrameHdr} {p : Nat × Nat}
    (hp : p ∈ probWritesCoeffFtr h.entropy_hdr) : p ∈ probWrites h := by
  unfold probWrites
  simp only [List.mem_append]
  tauto

theorem mvHigh_mem (e : V4l2Vp8EntropyHdr) (i j b : Nat)
    (hi : i < 2) (hj : j = 0 ∨ j = 4) (hb : b < 4) :
    (24 + 8 * i + j + b, e.mv_probs i (j + 9 + b)) ∈ probWritesMvHigh e := by
  unfold probWritesMvHigh
  refine List.mem_flatMap.mpr ⟨i, List.mem_range.mpr hi, ?_⟩
  refine List.mem_flatMap.mpr ⟨j, ?_, ?_⟩
  · rcases hj with hj | hj <;> simp [hj]
  · exact List.mem_map.mpr ⟨b, List.mem_range.mpr hb, rfl⟩

theorem mvLow_mem (e : V4l2Vp8EntropyHdr) (i b : Nat)
    (hi : i < 2) (hb : b < 7) :
    (40 + 8 * i + b, e.mv_probs i (b + 2)) ∈ probWritesMvLow e := by
  unfold probWritesMvLow
  refine List.mem_flatMap.mpr ⟨i, List.mem_range.mpr hi, ?_⟩
  exact List.mem_append_left _ (List.mem_map.mpr ⟨b, List.mem_range.mpr hb, rfl⟩)

theorem coeffHdr_mem (e : V4l2Vp8EntropyHdr) (i j k b : Nat)
    (hi : i < 4) (hj : j < 8) (hk : k < 3) (hb : b < 4) :
    (8 * 7 + 4 * (24 * i + 3 * j + k) + b, e.coeff_probs i j k b)
      ∈ probWritesCoeffHdr e := by
  unfold probWritesCoeffHdr
  refine List.mem_flatMap.mpr ⟨i, List.mem_range.mpr hi, ?_⟩
  refine List.mem_flatMap.mpr ⟨j, List.mem_range.mpr hj, ?_⟩
  refine List.mem_flatMap.mpr ⟨k, List.mem_range.mpr hk, ?_⟩
  exact List.mem_map.mpr ⟨b, List.mem_range.mpr hb, rfl⟩

theorem coeffFtr_mem (e : V4l2Vp8EntropyHdr) (i j k b : Nat)
    (hi : i < 4) (hj : j < 8) (hk : k < 3) (hb : b < 7) :
    (8 * 55 + 8 * (24 * i + 3 * j + k) + b, e.coeff_probs i j k (b + 4))
      ∈ probWritesCoeffFtr e := by
  unfold probWritesCoeffFtr
  refine List.mem_flatMap.mpr ⟨i, List.mem_range.mpr hi, ?_⟩
  refine List.mem_flatMap.mpr ⟨j, List.mem_range.mpr hj, ?_⟩
  refine List.mem_flatMap.mpr ⟨k, List.mem_range.mpr hk, ?_⟩
  exact List.mem_append_left _ (List.mem_map.mpr ⟨b, List.mem_range.mpr hb, rfl⟩)

/-! ## Claim C3 -/

/-- C3: packing a FrameHeader into the probability table and reading the
table back by offset reproduces every source probability byte-for-byte at
its documented offset: `prob_mb_skip_false` at byte 0, `prob_intra` at
byte 1, likewise the remaining frame, segmentation, mode and motion-vector
probabilities, and the coefficient probabilities with bytes 0-3 of each
11-entry triple in the header region starting at byte 56 and bytes 4-10 in
the footer region starting at byte 440 — for any previous buffer
contents. -/
theorem c3_prob_table_round_trip (m0 : Nat → Nat) (h : V4l2Vp8FrameHdr) :
    probTable m0 h 0 = h.prob_skip_false ∧
    probTable m0 h 1 = h.prob_intra ∧
    probTable m0 h 2 = h.prob_last ∧
    probTable m0 h 3 = h.prob_gf ∧
    (∀ s, s < 3 → probTable m0 h (4 + s) = h.sgmnt_hdr.segment_probs s) ∧
    (∀ m, m < 4 → probTable m0 h (8 + m) = h.entropy_hdr.y_mode_probs m) ∧
    (∀ m, m < 3 → probTable m0 h (12 + m) = h.entropy_hdr.uv_mode_probs m) ∧
    (∀ i, i < 2 → probTable m0 h (16 + i) = h.entropy_hdr.mv_probs i 0) ∧
    (∀ i, i < 2 → probTable m0 h (18 + i) = h.entropy_hdr.mv_probs i 1) ∧
    (∀ i, i < 2 → ∀ t, 2 ≤ t → t ≤ 8 →
      probTable m0 h (40 + 8 * i + (t - 2)) = h.entropy_hdr.mv_probs i t) ∧
    (∀ i, i < 2 → ∀ t, 9 ≤ t → t ≤ 16 →
      probTable m0 h (24 + 8 * i + (t - 9)) = h.entropy_hdr.mv_probs i t) ∧
    (∀ i, i < 2 → probTable m0 h (20 + 2 * i) = h.entropy_hdr.mv_probs i 17) ∧
    (∀ i, i < 2 → probTable m0 h (21 + 2 * i) = h.entropy_hdr.mv_probs i 18) ∧
    (∀ i, i < 4 → ∀ j, j < 8 → ∀ k, k < 3 → ∀ b, b < 4 →
      probTable m0 h (56 + 4 * (24 * i + 3 * j + k) + b)
        = h.entropy_hdr.coeff_probs i j k b) ∧
    (∀ i, i < 4 → ∀ j, j < 8 → ∀ k, k < 3 → ∀ b, 4 ≤ b → b < 11 →
      probTable m0 h (440 + 8 * (24 * i + 3 * j + k) + (b - 4))
        = h.entropy_hdr.coeff_probs i j k b) := by
  simp only [probTable]
  refine ⟨?_, ?_, ?_, ?_, ?_, ?_, ?_, ?_, ?_, ?_, ?_, ?_, ?_, ?_, ?_⟩
  · exact runWrites_apply_of_mem _ _ _ _ (probWrites_fst_nodup h)
      (mem_probWrites_of_first (by simp [probWritesFirst]))
  · exact runWrites_apply_of_mem _ _ _ _ (probWrites_fst_nodup h)
      (mem_probWrites_of_first (by simp [probWritesFirst]))
  · exact runWrites_apply_of_mem _ _ _ _ (probWrites_fst_nodup h)
      (mem_probWrites_of_first (by simp [probWritesFirst]))
  · exact runWrites_apply_of_mem _ _ _ _ (probWrites_fst_nodup h)
      (mem_probWrites_of_first (by simp [probWritesFirst]))
  · intro s hs
    interval_cases s <;>
      exact runWrites_apply_of_mem _ _ _ _ (probWrites_fst_nodup h)
        (mem_probWrites_of_first (by simp [probWritesFirst]))
  · intro m hm
    interval_cases m <;>
      exact runWrites_apply_of_mem _ _ _ _ (probWrites_fst_nodup h)
        (mem_probWrites_of_modes (by simp [probWritesModes]))
  · intro m hm
    interval_cases m <;>
      exact runWrites_apply_of_mem _ _ _ _ (probWrites_fst_nodup h)
        (mem_probWrites_of_modes (by simp [probWritesModes]))
  · intro i hi
    interval_cases i <;>
      exact runWrites_apply_of_mem _ _ _ _ (probWrites_fst_nodup h)
        (mem_probWrites_of_mvFixed (by simp [probWritesMvFixed]))
  · intro i hi
    interval_cases i <;>
      exact runWrites_apply_of_mem _ _ _ _ (probWrites_fst_nodup h)
        (mem_probWrites_of_mvFixed (by simp [probWritesMvFixed]))
  · intro i hi t ht2 ht8
    have ht : t - 2 + 2 = t := by omega
    have hmem := mvLow_mem h.entropy_hdr i (t - 2) hi (by omega)
    rw [ht] at hmem
    exact runWrites_apply_of_mem _ _ _ _ (probWrites_fst_nodup h)
      (mem_probWrites_of_mvLow hmem)
  · intro i hi t ht9 ht16
    by_cases hc : t ≤ 12
    · have hmem := mvHigh_mem h.entropy_hdr i 0 (t - 9) hi (Or.inl rfl) (by omega)
      have e1 : 0 + 9 + (t - 9) = t := by omega
      have e2 : 24 + 8 * i + 0 + (t - 9) = 24 + 8 * i + (t - 9) := by omega
      rw [e1, e2] at hmem
      exact runWrites_apply_of_mem _ _ _ _ (probWrites_fst_nodup h)
        (mem_probWrites_of_mvHigh hmem)
    · have hmem := mvHigh_mem h.entropy_hdr i 4 (t - 13) hi (Or.inr rfl) (by omega)
      have e1 : 4 + 9 + (t - 13) = t := by omega
      have e2 : 24 + 8 * i + 4 + (t - 13) = 24 + 8 * i + (t - 9) := by omega
      rw [e1, e2] at hmem
      exact runWrites_apply_of_mem _ _ _ _ (probWrites_fst_nodup h)
        (mem_probWrites_of_mvHigh hmem)
  · intro i hi
    interval_cases i <;>
      exact runWrites_apply_of_mem _ _ _ _ (probWrites_fst_nodup h)
        (mem_probWrites_of_mvFixed (by simp [probWritesMvFixed]))
  · intro i hi
    interval_cases i <;>
      exact runWrites_apply_of_mem _ _ _ _ (probWrites_fst_nodup h)
        (mem_probWrites_of_mvFixed (by simp [probWritesMvFixed]))
  · intro i hi j hj k hk b hb
    exact runWrites_apply_of_mem _ _ _ _ (probWrites_fst_nodup h)
      (mem_probWrites_of_coeffHdr (coeffHdr_mem h.entropy_hdr i j k b hi hj hk hb))
  · intro i hi j hj k hk b hb4 hb11
    have hmem := coeffFtr_mem h.entropy_hdr i j k (b - 4) hi hj hk (by omega)
    have e1 : b - 4 + 4 = b := by omega
    rw [e1] at hmem
    exact runWrites_apply_of_mem _ _ _ _ (probWrites_fst_nodup h)
      (mem_probWrites_of_coeffFtr hmem)

/-- Witness for C3 at a concrete header and non-zero previous buffer
contents. -/
theorem c3_witness :
    probTable (fun _ => 55) baseHdr 0 = baseHdr.prob_skip_false ∧
    probTable (fun _ => 55) baseHdr (4 + 2) = baseHdr.sgmnt_hdr.segment_probs 2 ∧
    probTable (fun _ => 55) baseHdr (40 + 8 * 1 + (5 - 2))
      = baseHdr.entropy_hdr.mv_probs 1 5 ∧
    probTable (fun _ => 55) baseHdr (24 + 8 * 1 + (14 - 9))
      = baseHdr.entropy_hdr.mv_probs 1 14 ∧
    probTable (fun _ => 55) baseHdr (56 + 4 * (24 * 3 + 3 * 7 + 2) + 3)
      = baseHdr.entropy_hdr.coeff_probs 3 7 2 3 ∧
    probTable (fun _ => 55) baseHdr (440 + 8 * (24 * 3 + 3 * 7 + 2) + (10 - 4))
      = baseHdr.entropy_hdr.coeff_probs 3 7 2 10 := by
  obtain ⟨p1, _, _, _, p5, _, _, _, _, p10, p11, _, _, p14, p15⟩ :=
    c3_prob_table_round_trip (fun _ => 55) baseHdr
  exact ⟨p1, p5 2 (by omega), p10 1 (by omega) 5 (by omega) (by omega),
    p11 1 (by omega) 14 (by omega) (by omega),
    p14 3 (by omega) 7 (by omega) 2 (by omega) 3 (by omega),
    p15 3 (by omega) 7 (by omega) 2 (by omega) 10 (by omega) (by omega)⟩

/-! ## Claim C10 -/

/-- C10: every byte written by `rockchip_vp8d_prob_update` lands inside the
allocated table of `sizeof(struct vp8_prob_tbl_packed) = 1208` bytes: the
full write sequence covers exactly offsets 0..1207, the header coefficient
region covers exactly bytes 56..439 and the footer coefficient region
exactly bytes 440..1207, so the final write ends exactly at the table's end
and no write is out of bounds. -/
theorem c10_prob_writes_in_bounds (h : V4l2Vp8FrameHdr) :
    (probWrites h).map Prod.fst = List.range vp8ProbTblPackedSize ∧
    (probWritesCoeffHdr h.entropy_hdr).map Prod.fst = List.range' 56 384 ∧
    (probWritesCoeffFtr h.entropy_hdr).map Prod.fst = List.range' 440 768 ∧
    (∀ p ∈ probWrites h, p.1 < vp8ProbTblPackedSize) ∧
    vp8ProbTblPackedSize = 1208 := by
  refine ⟨probWrites_fst h, probWritesCoeffHdr_fst _, probWritesCoeffFtr_fst _, ?_, rfl⟩
  intro p hp
  have hmem : p.1 ∈ (probWrites h).map Prod.fst := List.mem_map_of_mem Prod.fst hp
  rw [probWrites_fst h] at hmem
  exact List.mem_range.mp hmem

/-- Witness for C10 at a concrete header: the write offsets cover exactly
the table and a sample write lands in bounds. -/
theorem c10_witness :
    (probWrites baseHdr).map Prod.fst = List.range vp8ProbTblPackedSize ∧
    (0, baseHdr.prob_skip_false).1 < vp8ProbTblPackedSize := by
  have t := c10_prob_writes_in_bounds baseHdr
  exact ⟨t.1, t.2.2.2.1 _ (mem_probWrites_of_first (by simp [probWritesFirst]))⟩

/-! ## Claim C4 -/

/-- C4: the control-partition macroblock-data start is computed in bits as
`first_part_offset * 8 + macroblock_bit_offset + 8`; the base-address byte
offset is rounded down to an 8-byte boundary (always a multiple of 8), the
residual start-bit value equals the bit position within the aligned 64-bit
word and always lies in [0, 63], and — absent 32-bit wraparound — the
programmed data length compensates exactly for the bytes discarded by the
alignment, reaching the end of the first partition. -/
theorem c4_ctrl_partition_alignment (h : V4l2Vp8FrameHdr) :
    mbAlignedOffset h % 8 = 0 ∧
    mbStartBits h ≤ 63 ∧
    mbStartBits h = mbOffsetBits h % 64 ∧
    (h.first_part_offset * 8 + h.macroblock_bit_offset + 8 < 2 ^ 32 →
     h.first_part_offset + h.first_part_size < 2 ^ 32 →
     mbOffsetBytes h ≤ h.first_part_offset + h.first_part_size →
     mbAlignedOffset h + mbSize h = h.first_part_offset + h.first_part_size) := by
  have h32 : (2 : Nat) ^ 32 = 4294967296 := by norm_num
  have h32i : (2 : Int) ^ 32 = 4294967296 := by norm_num
  simp only [mbStartBits, mbSize, mbAlignedOffset, mbOffsetBytes, mbOffsetBits, u32,
    toU32, h32, h32i]
  omega

/-- Witness for C4 at `first_part_offset = 10`, `macroblock_bit_offset = 3`,
`first_part_size = 100`: the aligned base offset is 8 (a multiple of 8), the
residual start bit is 27, and `8 + mb_size = 10 + 100`. -/
theorem c4_witness :
    mbAlignedOffset baseHdr % 8 = 0 ∧ mbStartBits baseHdr ≤ 63 ∧
    mbAlignedOffset baseHdr + mbSize baseHdr
      = baseHdr.first_part_offset + baseHdr.first_part_size ∧
    mbStartBits baseHdr = 27 ∧ mbAlignedOffset baseHdr = 8 := by
  have t := c4_ctrl_partition_alignment baseHdr
  exact ⟨t.1, t.2.1, t.2.2.2 (by decide) (by decide) (by decide),
    by decide, by decide⟩

/-! ## Claim C6 helper lemmas -/

theorem toU32_int_eq (v : Int) (h0 : 0 ≤ v) (h1 : v < 2 ^ 32) :
    (toU32 v : Int) = v := by
  unfold toU32
  have h32i : (2 : Int) ^ 32 = 4294967296 := by norm_num
  rw [h32i] at h1 ⊢
  omega

theorem cClamp_bounds (v lo hi : Int) (hlohi : lo ≤ hi) :
    lo ≤ cClamp v lo hi ∧ cClamp v lo hi ≤ hi := by
  unfold cClamp
  exact ⟨le_min (le_max_right v lo) hlohi, min_le_right _ _⟩

theorem runWrites_append (m : Nat → Nat) (ws1 ws2 : List (Nat × Nat)) (a : Nat) :
    runWrites m (ws1 ++ ws2) a = runWrites (runWrites m ws1) ws2 a := by
  simp [runWrites, List.foldl_append]

theorem runWrites_map_slot (g : Nat → Nat) (base : Nat) (m : Nat → Nat)
    (i : Nat) (hi : i < 4) :
    runWrites m ((List.range 4).map fun t => (base + t, g t)) (base + i) = g i := by
  apply runWrites_apply_of_mem
  · rw [List.map_map]
    have he : (List.range 4).map (Prod.fst ∘ fun t => (base + t, g t))
        = (List.range 4).map (fun t => base + t) := rfl
    rw [he]
    exact List.Nodup.map (fun a b hab => by omega) (List.nodup_range 4)
  · exact List.mem_map.mpr ⟨i, List.mem_range.mpr hi, rfl⟩

theorem vp8dCfgLfRest_fst_ge (h : V4l2Vp8FrameHdr) :
    ∀ p ∈ vp8dCfgLfRest h, 110 ≤ p.1 := by
  intro p hp
  unfold vp8dCfgLfRest at hp
  rcases List.mem_append.mp hp with hp | hp
  · rcases List.mem_append.mp hp with hp | hp
    · simp only [List.mem_singleton] at hp
      subst hp
      simp [VDPU_REG_REF_PIC_FILT_SHARPNESS]
    · split_ifs at hp with hc
      · simp only [List.mem_singleton] at hp
        subst hp
        simp [VDPU_REG_REF_PIC_FILT_TYPE_E]
      · cases hp
  · split_ifs at hp with hc
    · rcases List.mem_flatMap.mp hp with ⟨t, ht, hp2⟩
      rcases List.mem_cons.mp hp2 with hp3 | hp3
      · subst hp3
        simp only [VDPU_REG_FILT_MB_ADJ_0]
        omega
      · rcases List.mem_cons.mp hp3 with hp4 | hp4
        · subst hp4
          simp only [VDPU_REG_REF_PIC_ADJ_0]
          omega
        · cases hp4
    · cases hp

theorem vp8dCfgQpDeltas_fst_ge (h : V4l2Vp8FrameHdr) :
    ∀ p ∈ vp8dCfgQpDeltas h, 150 ≤ p.1 := by
  intro p hp
  unfold vp8dCfgQpDeltas at hp
  simp only [List.mem_cons, List.not_mem_nil, or_false] at hp
  rcases hp with hp | hp | hp | hp | hp <;>
    (subst hp
     simp [VDPU_REG_REF_PIC_QUANT_DELTA_0, VDPU_REG_REF_PIC_QUANT_DELTA_1,
       VDPU_REG_REF_PIC_QUANT_DELTA_2, VDPU_REG_REF_PIC_QUANT_DELTA_3,
       VDPU_REG_REF_PIC_QUANT_DELTA_4])

theorem regFile_cfgLf_low (h : V4l2Vp8FrameHdr) (a : Nat) (ha : a < 110) :
    regFile (vp8dCfgLf h) a = runWrites (fun _ => 0) (vp8dCfgLfLevels h) a := by
  unfold regFile vp8dCfgLf
  rw [runWrites_append]
  apply runWrites_apply_of_forall_ne
  intro p hp
  have hge := vp8dCfgLfRest_fst_ge h p hp
  omega

theorem regFile_cfgQp_low (h : V4l2Vp8FrameHdr) (a : Nat) (ha : a < 150) :
    regFile (vp8dCfgQp h) a = runWrites (fun _ => 0) (vp8dCfgQpQuant h) a := by
  unfold regFile vp8dCfgQp
  rw [runWrites_append]
  apply runWrites_apply_of_forall_ne
  intro p hp
  have hge := vp8dCfgQpDeltas_fst_ge h p hp
  omega

/-! ## Claim C6 -/

/-- C6: with segmentation disabled, `rockchip_vp8d_cfg_lf` and
`rockchip_vp8d_cfg_qp` program a single loop-filter level and a single AC
quantizer index; with segmentation enabled in absolute mode the four
per-segment filter levels and quantizer indices are copied verbatim (as
u32 register values); in delta mode each programmed filter level equals
`clamp(level + lf_update[i], 0, 63)` and each programmed quantizer index
equals `clamp(y_ac_qi + quant_update[i], 0, 127)`. -/
theorem c6_lf_qp_segmentation_modes (h : V4l2Vp8FrameHdr) :
    (h.sgmnt_hdr.flag_enabled = false →
      regFile (vp8dCfgLf h) VDPU_REG_REF_PIC_LF_LEVEL_0 = toU32 h.lf_hdr.level ∧
      regFile (vp8dCfgQp h) VDPU_REG_REF_PIC_QUANT_0 = toU32 h.quant_hdr.y_ac_qi) ∧
    (h.sgmnt_hdr.flag_enabled = true → h.sgmnt_hdr.segment_feature_mode ≠ 0 →
      ∀ i, i < 4 →
        regFile (vp8dCfgLf h) (VDPU_REG_REF_PIC_LF_LEVEL_0 + i)
          = toU32 (h.sgmnt_hdr.lf_update i) ∧
        regFile (vp8dCfgQp h) (VDPU_REG_REF_PIC_QUANT_0 + i)
          = toU32 (h.sgmnt_hdr.quant_update i)) ∧
    (h.sgmnt_hdr.flag_enabled = true → h.sgmnt_hdr.segment_feature_mode = 0 →
      ∀ i, i < 4 →
        (regFile (vp8dCfgLf h) (VDPU_REG_REF_PIC_LF_LEVEL_0 + i) : Int)
          = cClamp (h.lf_hdr.level + h.sgmnt_hdr.lf_update i) 0 63 ∧
        (regFile (vp8dCfgQp h) (VDPU_REG_REF_PIC_QUANT_0 + i) : Int)
          = cClamp (h.quant_hdr.y_ac_qi + h.sgmnt_hdr.quant_update i) 0 127) := by
  refine ⟨?_, ?_, ?_⟩
  · intro hEn
    have hLfLevels : vp8dCfgLfLevels h
        = [(VDPU_REG_REF_PIC_LF_LEVEL_0, toU32 h.lf_hdr.level)] := by
      unfold vp8dCfgLfLevels
      rw [if_pos (by simp [hEn])]
    have hQpQuant : vp8dCfgQpQuant h
        = [(VDPU_REG_REF_PIC_QUANT_0, toU32 h.quant_hdr.y_ac_qi)] := by
      unfold vp8dCfgQpQuant
      rw [if_pos (by simp [hEn])]
    constructor
    · rw [regFile_cfgLf_low h _ (by simp [VDPU_REG_REF_PIC_LF_LEVEL_0]), hLfLevels]
      rfl
    · rw [regFile_cfgQp_low h _ (by simp [VDPU_REG_REF_PIC_QUANT_0]), hQpQuant]
      rfl
  · intro hEn hMode i hi
    have hLfLevels : vp8dCfgLfLevels h = (List.range 4).map fun t =>
        (VDPU_REG_REF_PIC_LF_LEVEL_0 + t, toU32 (h.sgmnt_hdr.lf_update t)) := by
      unfold vp8dCfgLfLevels
      rw [if_neg (by simp [hEn]), if_pos hMode]
    have hQpQuant : vp8dCfgQpQuant h = (List.range 4).map fun t =>
        (VDPU_REG_REF_PIC_QUANT_0 + t, toU32 (h.sgmnt_hdr.quant_update t)) := by
      unfold vp8dCfgQpQuant
      rw [if_neg (by simp [hEn]), if_pos hMode]
    constructor
    · rw [regFile_cfgLf_low h _ (by simp only [VDPU_REG_REF_PIC_LF_LEVEL_0]; omega),
        hLfLevels]
      exact runWrites_map_slot _ _ _ i hi
    · rw [regFile_cfgQp_low h _ (by simp only [VDPU_REG_REF_PIC_QUANT_0]; omega),
        hQpQuant]
      exact runWrites_map_slot _ _ _ i hi
  · intro hEn hMode i hi
    have hb63 := cClamp_bounds (h.lf_hdr.level + h.sgmnt_hdr.lf_update i) 0 63
      (by norm_num)
    have hb127 := cClamp_bounds (h.quant_hdr.y_ac_qi + h.sgmnt_hdr.quant_update i) 0 127
      (by norm_num)
    have hLfLevels : vp8dCfgLfLevels h = (List.range 4).map fun t =>
        (VDPU_REG_REF_PIC_LF_LEVEL_0 + t,
         toU32 (cClamp (h.lf_hdr.level + h.sgmnt_hdr.lf_update t) 0 63)) := by
      unfold vp8dCfgLfLevels
      rw [if_neg (by simp [hEn]), if_neg (by simp [hMode])]
    have hQpQuant : vp8dCfgQpQuant h = (List.range 4).map fun t =>
        (VDPU_REG_REF_PIC_QUANT_0 + t,
         toU32 (cClamp (h.quant_hdr.y_ac_qi + h.sgmnt_hdr.quant_update t) 0 127)) := by
      unfold vp8dCfgQpQuant
      rw [if_neg (by simp [hEn]), if_neg (by simp [hMode])]
    constructor
    · rw [regFile_cfgLf_low h _ (by simp only [VDPU_REG_REF_PIC_LF_LEVEL_0]; omega),
        hLfLevels, runWrites_map_slot _ _ _ i hi]
      exact toU32_int_eq _ hb63.1 (by omega)
    · rw [regFile_cfgQp_low h _ (by simp only [VDPU_REG_REF_PIC_QUANT_0]; omega),
        hQpQuant, runWrites_map_slot _ _ _ i hi]
      exact toU32_int_eq _ hb127.1 (by omega)

/-- Witness for C6: concrete headers exercising the three segmentation
modes. -/
theorem c6_witness :
    regFile (vp8dCfgLf baseHdr) VDPU_REG_REF_PIC_LF_LEVEL_0
      = toU32 baseHdr.lf_hdr.level ∧
    regFile (vp8dCfgQp baseHdr) VDPU_REG_REF_PIC_QUANT_0
      = toU32 baseHdr.quant_hdr.y_ac_qi ∧
    regFile (vp8dCfgLf absModeHdr) (VDPU_REG_REF_PIC_LF_LEVEL_0 + 2)
      = toU32 (absModeHdr.sgmnt_hdr.lf_update 2) ∧
    regFile (vp8dCfgQp absModeHdr) (VDPU_REG_REF_PIC_QUANT_0 + 2)
      = toU32 (absModeHdr.sgmnt_hdr.quant_update 2) ∧
    (regFile (vp8dCfgLf deltaModeHdr) (VDPU_REG_REF_PIC_LF_LEVEL_0 + 1) : Int)
      = cClamp (deltaModeHdr.lf_hdr.level + deltaModeHdr.sgmnt_hdr.lf_update 1) 0 63 ∧
    (regFile (vp8dCfgQp deltaModeHdr) (VDPU_REG_REF_PIC_QUANT_0 + 1) : Int)
      = cClamp (deltaModeHdr.quant_hdr.y_ac_qi
          + deltaModeHdr.sgmnt_hdr.quant_update 1) 0 127 := by
  refine ⟨((c6_lf_qp_segmentation_modes baseHdr).1 rfl).1,
    ((c6_lf_qp_segmentation_modes baseHdr).1 rfl).2,
    ((c6_lf_qp_segmentation_modes absModeHdr).2.1 rfl (by decide) 2 (by decide)).1,
    ((c6_lf_qp_segmentation_modes absModeHdr).2.1 rfl (by decide) 2 (by decide)).2,
    ((c6_lf_qp_segmentation_modes deltaModeHdr).2.2 rfl (by decide) 1 (by decide)).1,
    ((c6_lf_qp_segmentation_modes deltaModeHdr).2.2 rfl (by decide) 1 (by decide)).2⟩

/-! ## Claim C7 -/

/-- Counterexample to C7 as stated: on a key frame (`key_frame = 0`) with
the in-range index `last_frame = 0`, `rockchip_vp8d_cfg_ref` programs the
current Job's output buffer address (2000) into the last-frame register
rather than the indexed history buffer address (1000). -/
theorem c7_counterexample : ¬ refAddrByIndexClaim := by
  intro hcl
  exact absurd (hcl keyFrameHdr refSt).1 (by decide)

/-- C7 amended: the golden and alt-ref addresses are always resolved by
index with the out-of-range fallback to the current Job's output buffer;
the last-frame address is resolved that way only on non-key frames
(`key_frame ≠ 0`), while on key frames the last-frame register is
programmed with the current Job's own output buffer address regardless of
the index. -/
theorem c7_ref_addr_resolution (h : V4l2Vp8FrameHdr) (s : RefState) :
    (h.key_frame = 0 →
      regFile (vp8dCfgRef h s) VDPU_REG_VP8_ADDR_REF0 = s.cur_dst) ∧
    (h.key_frame ≠ 0 →
      regFile (vp8dCfgRef h s) VDPU_REG_VP8_ADDR_REF0
        = (if s.num_buffers ≤ h.last_frame then s.cur_dst
           else s.dst_bufs h.last_frame)) ∧
    regFile (vp8dCfgRef h s) VDPU_REG_VP8_ADDR_REF2_5_0
      = (if s.num_buffers ≤ h.golden_frame then s.cur_dst
         else s.dst_bufs h.golden_frame) ∧
    regFile (vp8dCfgRef h s) VDPU_REG_VP8_ADDR_REF2_5_1
      = (if s.num_buffers ≤ h.alt_frame then s.cur_dst
         else s.dst_bufs h.alt_frame) := by
  refine ⟨?_, ?_, ?_, ?_⟩
  · intro hk
    simp only [regFile, vp8dCfgRef, if_pos hk]
    split_ifs <;> rfl
  · intro hk
    simp only [regFile, vp8dCfgRef, if_neg hk]
    split_ifs <;> rfl
  · simp only [regFile, vp8dCfgRef]
    split_ifs <;> rfl
  · simp only [regFile, vp8dCfgRef]
    split_ifs <;> rfl

/-- Witness for the amended C7 at concrete headers and buffer state. -/
theorem c7_witness :
    regFile (vp8dCfgRef keyFrameHdr refSt) VDPU_REG_VP8_ADDR_REF0 = refSt.cur_dst ∧
    regFile (vp8dCfgRef baseHdr refSt) VDPU_REG_VP8_ADDR_REF0
      = (if refSt.num_buffers ≤ baseHdr.last_frame then refSt.cur_dst
         else refSt.dst_bufs baseHdr.last_frame) ∧
    regFile (vp8dCfgRef baseHdr refSt) VDPU_REG_VP8_ADDR_REF2_5_0
      = (if refSt.num_buffers ≤ baseHdr.golden_frame then refSt.cur_dst
         else refSt.dst_bufs baseHdr.golden_frame) :=
  ⟨(c7_ref_addr_resolution keyFrameHdr refSt).1 rfl,
   (c7_ref_addr_resolution baseHdr refSt).2.1 (by decide),
   (c7_ref_addr_resolution baseHdr refSt).2.2.1⟩

/-! ## Claim C8 -/

/-- Counterexample to C8 as stated: on a key-frame header (`key_frame = 0`,
segmentation-update flag clear) the code re-zeroes the segment map, while
the claimed condition (non-key frame with segmentation not updated) says it
must persist unchanged. -/
theorem c8_counterexample : ¬ segResetOnNonKeyClaim := by
  intro hcl
  exact absurd (hcl keyFrameHdr [5]) (by decide)

/-- C8 amended: the segment map is zeroed in full at codec init, and during
a run it is re-zeroed exactly when the frame is a key frame (`key_frame = 0`
in this driver) and the buffer is allocated; on non-key frames, and when the
buffer pointer is NULL, its contents persist unchanged. -/
theorem c8_segment_map_lifetime :
    (∀ n : Nat, ∀ x ∈ segmentMapInit n, x = 0) ∧
    (∀ (h : V4l2Vp8FrameHdr) (m : List Nat), h.key_frame = 0 →
      vp8dRunSegmentReset h (some m) = some (List.replicate m.length 0)) ∧
    (∀ (h : V4l2Vp8FrameHdr) (m : List Nat), h.key_frame ≠ 0 →
      vp8dRunSegmentReset h (some m) = some m) ∧
    (∀ h : V4l2Vp8FrameHdr, vp8dRunSegmentReset h none = none) := by
  refine ⟨?_, ?_, ?_, ?_⟩
  · intro n x hx
    exact List.eq_of_mem_replicate hx
  · intro h m hk
    simp [vp8dRunSegmentReset, hk]
  · intro h m hk
    simp [vp8dRunSegmentReset, hk]
  · intro h
    rfl

/-- Witness for the amended C8 at concrete headers. -/
theorem c8_witness :
    vp8dRunSegmentReset keyFrameHdr (some [5]) = some [0] ∧
    vp8dRunSegmentReset baseHdr (some [5]) = some [5] :=
  ⟨c8_segment_map_lifetime.2.1 keyFrameHdr [5] rfl,
   c8_segment_map_lifetime.2.2.1 baseHdr [5] (by decide)⟩

/-! ## Claim C9 -/

/-- C9: `rockchip_vpu_vp8d_init` is atomic in its error cases: an
unrecognized hardware variant fails with `-EPERM` before any scratch buffer
is allocated; a segment-map allocation failure returns `-ENOMEM` with
nothing live; a probability-table allocation failure frees the segment map
and returns `-ENOMEM` with no partial state; on success both buffers are
live, the segment map zero-filled and the probability table sized
`sizeof(struct vp8_prob_tbl_packed) = 1208`. -/
theorem c9_vp8d_init_atomic (w hgt : Nat) :
    (∀ alloc : AuxAllocOracle,
      vp8dInit .rk_vpu_none alloc w hgt
        = (-EPERM, { segment_map := none, prob_tbl := none })) ∧
    (∀ (vt : RockchipVpuType) (alloc : AuxAllocOracle), vt ≠ .rk_vpu_none →
      alloc.segment_map_ok = false →
      vp8dInit vt alloc w hgt
        = (-ENOMEM, { segment_map := none, prob_tbl := none })) ∧
    (∀ (vt : RockchipVpuType) (alloc : AuxAllocOracle), vt ≠ .rk_vpu_none →
      alloc.segment_map_ok = true → alloc.prob_tbl_ok = false →
      vp8dInit vt alloc w hgt
        = (-ENOMEM, { segment_map := none, prob_tbl := none })) ∧
    (∀ (vt : RockchipVpuType) (alloc : AuxAllocOracle), vt ≠ .rk_vpu_none →
      alloc.segment_map_ok = true → alloc.prob_tbl_ok = true →
      vp8dInit vt alloc w hgt
        = (0, { segment_map := some (List.replicate (segmentMapSize w hgt) 0)
                prob_tbl := some 1208 })) := by
  refine ⟨?_, ?_, ?_, ?_⟩
  · intro alloc
    simp [vp8dInit]
  · intro vt alloc hvt hseg
    cases vt with
    | rk_vpu_none => exact absurd rfl hvt
    | rk3288_vpu => simp [vp8dInit, hseg]
    | rk3229_vpu => simp [vp8dInit, hseg]
  · intro vt alloc hvt hseg hprob
    cases vt with
    | rk_vpu_none => exact absurd rfl hvt
    | rk3288_vpu => simp [vp8dInit, hseg, hprob]
    | rk3229_vpu => simp [vp8dInit, hseg, hprob]
  · intro vt alloc hvt hseg hprob
    cases vt with
    | rk_vpu_none => exact absurd rfl hvt
    | rk3288_vpu => simp [vp8dInit, hseg, hprob, segmentMapInit, vp8ProbTblPackedSize]
    | rk3229_vpu => simp [vp8dInit, hseg, hprob, segmentMapInit, vp8ProbTblPackedSize]

/-- Witness for C9 at concrete variants, allocation outcomes and a 64x48
frame. -/
theorem c9_witness :
    vp8dInit .rk_vpu_none { segment_map_ok := true, prob_tbl_ok := true } 64 48
      = (-EPERM, { segment_map := none, prob_tbl := none }) ∧
    vp8dInit .rk3288_vpu { segment_map_ok := false, prob_tbl_ok := true } 64 48
      = (-ENOMEM, { segment_map := none, prob_tbl := none }) ∧
    vp8dInit .rk3288_vpu { segment_map_ok := true, prob_tbl_ok := false } 64 48
      = (-ENOMEM, { segment_map := none, prob_tbl := none }) ∧
    vp8dInit .rk3229_vpu { segment_map_ok := true, prob_tbl_ok := true } 64 48
      = (0, { segment_map := some (List.replicate (segmentMapSize 64 48) 0)
              prob_tbl := some 1208 }) :=
  ⟨(c9_vp8d_init_atomic 64 48).1 _,
   (c9_vp8d_init_atomic 64 48).2.1 _ _ (by decide) rfl,
   (c9_vp8d_init_atomic 64 48).2.2.1 _ _ (by decide) rfl rfl,
   (c9_vp8d_init_atomic 64 48).2.2.2 _ _ (by decide) rfl rfl⟩

end RockchipVpu
